import Mathlib

/-!
Verification of the routing and middleware dispatch core of the
cloudflare-edge-toolkit repository (src/router/Router.ts), as a shallow
embedding in Lean 4.

The embedding covers:
* the path pattern compiler `parsePath` (the three global regex replaces of
  `Router.parsePath`),
* a small regular-expression engine modelling the fragment of JavaScript
  `RegExp` behaviour (anchored test and capture extraction) that compiled
  route patterns rely on,
* the route table (`addRoute`, `findRoute`, `extractParams`),
* route groups (`RouteGroup`) and sub-router mounting (`Router.use(path, router)`,
  called `mount` here because Lean cannot overload the two `use` signatures),
* the dispatch state machine `Router.handle`, including the not-found and
  error fallbacks and JavaScript try/catch propagation.

Handlers are embedded behaviourally: a handler is an identifier together with
what it does when invoked on the request under consideration (return a
response, fall through, or throw).  `Router.handle` returns the trace of
handler invocations together with the outcome (a response, or an exception
escaping the `handle` entry point).
-/

namespace EdgeRouter

/-! ## A regular-expression engine for the compiled pattern fragment

`Router.parsePath` produces a pattern source string `^...$` and routes are
tested with `RegExp.test` / `String.match`.  The definitions below model the
JavaScript regex semantics (leftmost, greedy, backtracking, numbered capture
groups) for the constructs that can appear in compiled patterns: literal
characters, `.`, character classes, groups, alternation and the `* + ?`
quantifiers.  Everything is structurally recursive on an explicit fuel so
that concrete evaluations reduce inside the kernel. -/

inductive RE where
  | eps
  | lit (c : Char)
  | dot
  | cls (neg : Bool) (ranges : List (Char × Char))
  | cat (a b : RE)
  | alt (a b : RE)
  | star (a : RE)
  | group (idx : Nat) (a : RE)
deriving Repr, DecidableEq

/-- Ranges denoted by a class escape such as `\d` or `\w` (ASCII, as in the
JavaScript defaults used by the router's patterns). -/
def clsRangesOfEsc (c : Char) : Option (List (Char × Char)) :=
  if c = 'd' then some [('0', '9')]
  else if c = 'w' then some [('a', 'z'), ('A', 'Z'), ('0', '9'), ('_', '_')]
  else if c = 's' then some [(' ', ' '), ('\t', '\t'), ('\n', '\n'), ('\r', '\r')]
  else none

/-- Parse the items of a character class up to the closing `]`.
Returns the ranges and the remaining input after `]`. -/
def pClsItems : Nat → List Char → Option (List (Char × Char) × List Char)
  | 0, _ => none
  | _ + 1, [] => none
  | fuel + 1, c :: rest =>
    if c = ']' then some ([], rest)
    else if c = '\\' then
      match rest with
      | [] => none
      | e :: rest2 =>
        let rs := (clsRangesOfEsc e).getD [(e, e)]
        match pClsItems fuel rest2 with
        | none => none
        | some (more, rem) => some (rs ++ more, rem)
    else
      match rest with
      | '-' :: d :: rest2 =>
        if d = ']' then
          -- a trailing `-` is a literal; `]` closes the class
          match pClsItems fuel ('-' :: d :: rest2) with
          | none => none
          | some (more, rem) => some ((c, c) :: more, rem)
        else
          match pClsItems fuel rest2 with
          | none => none
          | some (more, rem) => some ((c, d) :: more, rem)
      | _ =>
        match pClsItems fuel rest with
        | none => none
        | some (more, rem) => some ((c, c) :: more, rem)

/-- Parser level: alternation, concatenation, or a single atom. -/
inductive PLevel where
  | palt
  | pcat
  | patom
deriving Repr, DecidableEq

/-- Characters that terminate a concatenation or cannot start an atom. -/
def atomStopChar (c : Char) : Bool :=
  c = '|' || c = ')' || c = '*' || c = '+' || c = '?' || c = '^' || c = '$' || c = ']'

/-- Recursive-descent parser for the regex fragment.  `g` is the next capture
group number (JavaScript numbers groups by order of `(`, starting at 1).
Returns the parsed expression, the remaining input, and the updated counter. -/
def parseL : Nat → PLevel → List Char → Nat → Option (RE × List Char × Nat)
  | 0, _, _, _ => none
  | fuel + 1, .palt, s, g =>
    match parseL fuel .pcat s g with
    | none => none
    | some (r, s2, g2) =>
      match s2 with
      | '|' :: s3 =>
        match parseL fuel .palt s3 g2 with
        | none => none
        | some (r2, s4, g4) => some (.alt r r2, s4, g4)
      | _ => some (r, s2, g2)
  | fuel + 1, .pcat, s, g =>
    match s with
    | [] => some (.eps, [], g)
    | c :: _ =>
      if c = '|' || c = ')' then some (.eps, s, g)
      else
        match parseL fuel .patom s g with
        | none => none
        | some (r, s2, g2) =>
          -- a single optional postfix quantifier after the atom
          let (r2, s3) :=
            match s2 with
            | '*' :: s3 => (RE.star r, s3)
            | '+' :: s3 => (RE.cat r (RE.star r), s3)
            | '?' :: s3 => (RE.alt r RE.eps, s3)
            | _ => (r, s2)
          match parseL fuel .pcat s3 g2 with
          | none => none
          | some (r3, s4, g4) => some (.cat r2 r3, s4, g4)
  | fuel + 1, .patom, s, g =>
    match s with
    | [] => none
    | '(' :: rest =>
      match rest with
      | '?' :: ':' :: r2 =>
        match parseL fuel .palt r2 g with
        | none => none
        | some (r, s2, g2) =>
          match s2 with
          | ')' :: s3 => some (r, s3, g2)
          | _ => none
      | _ =>
        match parseL fuel .palt rest (g + 1) with
        | none => none
        | some (r, s2, g2) =>
          match s2 with
          | ')' :: s3 => some (.group g r, s3, g2)
          | _ => none
    | '[' :: rest =>
      let (neg, rest2) :=
        match rest with
        | '^' :: r2 => (true, r2)
        | _ => (false, rest)
      match pClsItems (rest2.length + 1) rest2 with
      | none => none
      | some (ranges, rem) => some (.cls neg ranges, rem, g)
    | '\\' :: e :: rest =>
      match clsRangesOfEsc e with
      | some rs => some (.cls false rs, rest, g)
      | none =>
        if e = 'D' then some (.cls true [('0', '9')], rest, g)
        else if e = 'W' then
          some (.cls true [('a', 'z'), ('A', 'Z'), ('0', '9'), ('_', '_')], rest, g)
        else if e = 'S' then
          some (.cls true [(' ', ' '), ('\t', '\t'), ('\n', '\n'), ('\r', '\r')], rest, g)
        else some (.lit e, rest, g)
    | '.' :: rest => some (.dot, rest, g)
    | c :: rest =>
      if atomStopChar c then none else some (.lit c, rest, g)

/-- Capture assignments: group index to captured substring. -/
def Caps := List (Nat × String)

def setCap (caps : Caps) (i : Nat) (v : String) : Caps :=
  (List.filter (fun pr => pr.1 != i) caps) ++ [(i, v)]

def capsGet (caps : Caps) (i : Nat) : Option String :=
  (List.find? (fun pr => pr.1 == i) caps).map (fun pr => pr.2)

/-- Backtracking matcher in continuation style, mirroring the JavaScript
engine's leftmost-greedy semantics: alternation prefers the left branch, a
star prefers one more (non-empty) iteration, a completed group records its
span.  Structural on fuel. -/
def mmatch : Nat → RE → List Char → Caps → (List Char → Caps → Option Caps) → Option Caps
  | 0, _, _, _, _ => none
  | fuel + 1, re, s, caps, k =>
    match re with
    | .eps => k s caps
    | .lit c =>
      match s with
      | [] => none
      | d :: rest => if d = c then k rest caps else none
    | .dot =>
      match s with
      | [] => none
      | d :: rest => if d = '\n' then none else k rest caps
    | .cls neg ranges =>
      match s with
      | [] => none
      | d :: rest =>
        let inCls := ranges.any (fun pr => pr.1 ≤ d && d ≤ pr.2)
        if (if neg then !inCls else inCls) then k rest caps else none
    | .cat a b => mmatch fuel a s caps (fun s2 c2 => mmatch fuel b s2 c2 k)
    | .alt a b =>
      match mmatch fuel a s caps k with
      | some r => some r
      | none => mmatch fuel b s caps k
    | .star a =>
      match mmatch fuel a s caps (fun s2 c2 =>
          if s2.length = s.length then none else mmatch fuel (.star a) s2 c2 k) with
      | some r => some r
      | none => k s caps
    | .group idx a =>
      mmatch fuel a s caps (fun s2 c2 =>
        k s2 (setCap c2 idx (String.mk (s.take (s.length - s2.length)))))

/-- Parse a full regex source (already stripped of the `^`/`$` anchors). -/
def parseRegex (l : List Char) : Option RE :=
  match parseL (8 * l.length + 16) .palt l 1 with
  | some (r, [], _) => some r
  | _ => none

/-- Compile a pattern string of the form `^body$` as produced by the path
compiler.  Compiled route patterns are always anchored at both ends. -/
def compilePattern (p : String) : Option RE :=
  match p.data with
  | '^' :: rest =>
    match rest.getLast? with
    | some '$' => parseRegex rest.dropLast
    | _ => none
  | _ => none

/-- Anchored match of a compiled pattern against a whole string, returning the
capture assignments on success; models `pathname.match(route.pattern)`. -/
def reFullMatch (pat s : String) : Option Caps :=
  match compilePattern pat with
  | none => none
  | some r =>
    mmatch ((pat.length + 4) * (s.length + 4) + 16) r s.data []
      (fun rest caps => if rest.isEmpty then some caps else none)

/-- Models `route.pattern.test(pathname)` for anchored compiled patterns. -/
def reTest (pat s : String) : Bool := (reFullMatch pat s).isSome

/-! ## The path pattern compiler (`Router.parsePath`)

The source performs three successive global regex replaces on the raw path:

1. `patternString.replace(/:(\w+)\(([^)]+)\)/g, (_, p, re) => { paramNames.push(p); return "(" + re + ")" })`
2. `patternString.replace(/:(\w+)/g, (_, p) => { if (!paramNames.includes(p)) paramNames.push(p); return "([^/]+)" })`
3. `patternString.replace(/\*/g, ".*")`

and finally builds `new RegExp("^" + patternString + "$")`.

A JavaScript global replace scans the source string left to right, replaces
each non-overlapping match, resumes after the match, and never rescans
replacement text within the same pass.  The scanners below implement exactly
that, one pass per replace, structurally recursive on a fuel equal to the
input length (every step consumes at least one input character, so this fuel
is always sufficient; fuel-irrelevance is proved below). -/

/-- JavaScript `\w`: ASCII letters, digits, underscore. -/
def isWordChar (c : Char) : Bool := c.isAlpha || c.isDigit || c = '_'

/-- Attempt to match the tail of `/:(\w+)\(([^)]+)\)/` immediately after a
`:` has been seen: a non-empty maximal word run, `(`, a non-empty maximal
run of non-`)` characters, `)`.  Returns the parameter name, the constraint
body, and the remaining input. -/
def tryConstraint (rest : List Char) : Option (String × List Char × List Char) :=
  if (rest.takeWhile isWordChar).isEmpty then none
  else
    if (rest.dropWhile isWordChar).head? = some '(' then
      if ((rest.dropWhile isWordChar).tail.takeWhile (fun c => c ≠ ')')).isEmpty then none
      else
        if ((rest.dropWhile isWordChar).tail.dropWhile (fun c => c ≠ ')')).head? = some ')' then
          some (String.mk (rest.takeWhile isWordChar),
                (rest.dropWhile isWordChar).tail.takeWhile (fun c => c ≠ ')'),
                ((rest.dropWhile isWordChar).tail.dropWhile (fun c => c ≠ ')')).tail)
        else none
    else none

/-- First replace pass: `:name(constraint)` becomes `(constraint)` and `name`
is pushed (unconditionally) onto the collected parameter names. -/
def scanC : Nat → List Char → List Char × List String
  | 0, l => (l, [])
  | _ + 1, [] => ([], [])
  | fuel + 1, c :: rest =>
    if c = ':' then
      match tryConstraint rest with
      | some (n, body, r4) =>
        let p := scanC fuel r4
        ('(' :: (body ++ ')' :: p.1), n :: p.2)
      | none =>
        let p := scanC fuel rest
        (c :: p.1, p.2)
    else
      let p := scanC fuel rest
      (c :: p.1, p.2)

def scanConstraint (l : List Char) : List Char × List String := scanC l.length l

/-- Second replace pass: `:name` becomes `([^/]+)`; `name` is appended to the
accumulated names only if not already present. -/
def scanP : Nat → List Char → List String → List Char × List String
  | 0, l, names => (l, names)
  | _ + 1, [], names => ([], names)
  | fuel + 1, c :: rest, names =>
    if c = ':' then
      let nm := rest.takeWhile isWordChar
      if nm.isEmpty then
        let p := scanP fuel rest names
        (c :: p.1, p.2)
      else
        let r2 := rest.dropWhile isWordChar
        let names2 := if names.contains (String.mk nm) then names else names ++ [String.mk nm]
        let p := scanP fuel r2 names2
        ("([^/]+)".data ++ p.1, p.2)
    else
      let p := scanP fuel rest names
      (c :: p.1, p.2)

def scanParam (l : List Char) (names : List String) : List Char × List String :=
  scanP l.length l names

/-- Third replace pass: every `*` becomes `.*`. -/
def scanWild : List Char → List Char
  | [] => []
  | c :: rest => if c = '*' then '.' :: '*' :: scanWild rest else c :: scanWild rest

structure ParsedPath where
  pattern : String
  paramNames : List String
deriving Repr, DecidableEq

/-- `Router.parsePath`: compile a raw route path into an anchored pattern
source string and the ordered list of parameter names. -/
def parsePath (path : String) : ParsedPath :=
  let s1 := scanConstraint path.data
  let s2 := scanParam s1.1 s1.2
  let s3 := scanWild s2.1
  { pattern := String.mk ('^' :: s3 ++ ['$']), paramNames := s2.2 }

/-! ## Handlers, routes and the router

A handler is embedded behaviourally: for the single request a dispatch run is
about, invoking it either returns a response, returns nothing (fall through),
or throws.  Each handler carries a numeric identifier so the dispatch trace
can record which handlers ran and in what order.  Responses and errors are
identified by numbers. -/

/-- What a handler does when invoked (return value of `await handler(...)`). -/
inductive HRes where
  | resp (r : Nat)
  | pass
  | err (e : Nat)
deriving Repr, DecidableEq

structure Handler where
  id : Nat
  beh : HRes
deriving Repr, DecidableEq

/-- What the custom error handler does when invoked with a given error. -/
inductive EHRes where
  | resp (r : Nat)
  | empty
  | err (e : Nat)
deriving Repr, DecidableEq

structure ErrHandler where
  id : Nat
  beh : Nat → EHRes

/-- `Route` from src/router/types.ts: method, raw path, compiled pattern
(kept as its source string), parameter names, handler chain. -/
structure Route where
  method : String
  path : String
  pattern : String
  paramNames : List String
  handlers : List Handler
deriving Repr, DecidableEq

structure Router where
  routes : List Route
  globalMiddleware : List Handler
  notFoundHandler : Option Handler
  errorHandler : Option ErrHandler

/-- The route value `addRoute` constructs and pushes. -/
def mkRoute (method path : String) (handlers : List Handler) : Route :=
  let pp := parsePath path
  { method := method, path := path, pattern := pp.pattern,
    paramNames := pp.paramNames, handlers := handlers }

def Router.addRoute (rt : Router) (method path : String) (handlers : List Handler) : Router :=
  { rt with routes := rt.routes ++ [mkRoute method path handlers] }

def Router.get (rt : Router) (path : String) (handlers : List Handler) : Router :=
  rt.addRoute "GET" path handlers

def Router.all (rt : Router) (path : String) (handlers : List Handler) : Router :=
  rt.addRoute "*" path handlers

/-- `Router.use(...handlers)` overload: append global middleware. -/
def Router.use (rt : Router) (middleware : List Handler) : Router :=
  { rt with globalMiddleware := rt.globalMiddleware ++ middleware }

/-- `Router.use(path, router)` overload: mount a sub-router.  The source
iterates over the sub-router's routes and calls
`this.addRoute(route.method, path + route.path, route.handlers)`. -/
def Router.mount (rt : Router) (pre : String) (sub : Router) : Router :=
  sub.routes.foldl (fun acc r => acc.addRoute r.method (pre ++ r.path) r.handlers) rt

def Router.on404 (rt : Router) (h : Handler) : Router :=
  { rt with notFoundHandler := some h }

def Router.onError (rt : Router) (h : ErrHandler) : Router :=
  { rt with errorHandler := some h }

/-- The structural match test of `Router.findRoute`: method equality or
wildcard method, and the anchored pattern accepts the whole pathname. -/
def routeAccepts (method pathname : String) (r : Route) : Bool :=
  (r.method == method || r.method == "*") && reTest r.pattern pathname

/-- The linear scan of `Router.findRoute` over the registered routes. -/
def findRouteList (method pathname : String) : List Route → Option Route
  | [] => none
  | r :: rest =>
    if routeAccepts method pathname r then some r else findRouteList method pathname rest

def Router.findRoute (rt : Router) (method pathname : String) : Option Route :=
  findRouteList method pathname rt.routes

/-- JavaScript object assignment `params[k] = v`: overwrite in place if the
key exists, else append. -/
def objSet (m : List (String × String)) (k v : String) : List (String × String) :=
  if m.any (fun pr => pr.1 == k) then m.map (fun pr => if pr.1 == k then (k, v) else pr)
  else m ++ [(k, v)]

def objGet (m : List (String × String)) (k : String) : Option String :=
  (List.find? (fun pr => pr.1 == k) m).map (fun pr => pr.2)

/-- `Router.extractParams`: `params[paramNames[i]] = match[i + 1] || ""`. -/
def Router.extractParams (route : Route) (pathname : String) : List (String × String) :=
  match reFullMatch route.pattern pathname with
  | none => []
  | some caps =>
    (List.range route.paramNames.length).foldl (fun m i =>
      objSet m (route.paramNames.getD i "") ((capsGet caps (i + 1)).getD "")) []

/-! ## The dispatch state machine (`Router.handle`)

`handle` wraps everything from routing through both `handleNotFound` call
sites in a single try/catch; the catch calls `handleError`, whose own
exception (a throwing custom error handler) is not caught by anything and
escapes the `handle` entry point.  The embedding flattens this control flow
and additionally records the trace of handler invocations. -/

/-- A response value, distinguishing handler-produced responses from the two
defaults the core builds itself. -/
inductive Resp where
  | fromHandler (r : Nat)
  | notFoundDefault
  | errorDefault (e : Nat)
deriving Repr, DecidableEq

/-- Result of the `handle` entry point: a response, or an exception escaping
`handle` (an unrecoverable fault for the caller). -/
inductive Outcome where
  | ok (r : Resp)
  | fault (e : Nat)
deriving Repr, DecidableEq

/-- Trace events: which handler was invoked, in which role. -/
inductive Ev where
  | mw (id : Nat)
  | rh (id : Nat)
  | nf (id : Nat)
  | eh (id : Nat) (e : Nat)
deriving Repr, DecidableEq

/-- How one of the two handler loops in `handle` ends. -/
inductive ChainExit where
  | fellThrough
  | responded (r : Nat)
  | threw (e : Nat)
deriving Repr, DecidableEq

/-- One `for (const h of hs) { const r = await h(...); if (r) return r }`
loop, recording invocations with the given event constructor. -/
def runChain (mk : Nat → Ev) : List Handler → List Ev × ChainExit
  | [] => ([], .fellThrough)
  | h :: rest =>
    match h.beh with
    | .resp r => ([mk h.id], .responded r)
    | .err e => ([mk h.id], .threw e)
    | .pass =>
      let p := runChain mk rest
      (mk h.id :: p.1, p.2)

/-- `Router.handleNotFound`: invoke the custom handler if present; a falsy
result falls back to the default 404.  A throw is reported to the caller
(`handle`'s try/catch). -/
def Router.handleNotFound (rt : Router) : List Ev × Except Nat Resp :=
  match rt.notFoundHandler with
  | some h =>
    match h.beh with
    | .resp r => ([.nf h.id], .ok (.fromHandler r))
    | .pass => ([.nf h.id], .ok .notFoundDefault)
    | .err e => ([.nf h.id], .error e)
  | none => ([], .ok .notFoundDefault)

/-- `Router.handleError`: invoke the custom error handler with the error if
present; a falsy result falls back to the default 500 carrying the error's
message.  The call sits outside any try/catch, so a throwing error handler
produces a fault that escapes `handle`. -/
def Router.handleError (rt : Router) (e : Nat) : List Ev × Outcome :=
  match rt.errorHandler with
  | some h =>
    match h.beh e with
    | .resp r => ([.eh h.id e], .ok (.fromHandler r))
    | .empty => ([.eh h.id e], .ok (.errorDefault e))
    | .err e2 => ([.eh h.id e], .fault e2)
  | none => ([], .ok (.errorDefault e))

/-- `Router.handle`.  Path parameters and query attachment are request-object
bookkeeping invisible to the behavioural handler embedding and are modelled
by `Router.extractParams` separately. -/
def Router.handle (rt : Router) (method pathname : String) : List Ev × Outcome :=
  match rt.findRoute method pathname with
  | none =>
    match rt.handleNotFound with
    | (evs, .ok r) => (evs, .ok r)
    | (evs, .error e) =>
      let q := rt.handleError e
      (evs ++ q.1, q.2)
  | some route =>
    match runChain .mw rt.globalMiddleware with
    | (evs, .responded r) => (evs, .ok (.fromHandler r))
    | (evs, .threw e) =>
      let q := rt.handleError e
      (evs ++ q.1, q.2)
    | (evs, .fellThrough) =>
      match runChain .rh route.handlers with
      | (evs2, .responded r) => (evs ++ evs2, .ok (.fromHandler r))
      | (evs2, .threw e) =>
        let q := rt.handleError e
        (evs ++ evs2 ++ q.1, q.2)
      | (evs2, .fellThrough) =>
        match rt.handleNotFound with
        | (evs3, .ok r) => (evs ++ evs2 ++ evs3, .ok r)
        | (evs3, .error e) =>
          let q := rt.handleError e
          (evs ++ evs2 ++ evs3 ++ q.1, q.2)

/-! ## Route groups (`RouteGroup`)

The JavaScript `RouteGroup` holds a reference to the router, a prefix and a
middleware array; registration spreads `[...groupMiddleware, ...handlers]`
into a fresh array, and nesting spreads the parent's middleware into a fresh
array.  The embedding threads the router value through the group, modelling
the spreads as list appends (fresh lists, matching the arrays the source
copies).  The field `pre` embeds the source's `prefix` field. -/

structure RouteGroup where
  router : Router
  pre : String
  groupMiddleware : List Handler

def Router.group (rt : Router) (pre : String) (middleware : List Handler) : RouteGroup :=
  { router := rt, pre := pre, groupMiddleware := middleware }

/-- `RouteGroup.get`: registers on the parent router with the accumulated
prefix and `[...groupMiddleware, ...handlers]`. -/
def RouteGroup.get (g : RouteGroup) (path : String) (handlers : List Handler) : RouteGroup :=
  { g with router := g.router.addRoute "GET" (g.pre ++ path) (g.groupMiddleware ++ handlers) }

/-- `RouteGroup.use`: push onto the group's own middleware array. -/
def RouteGroup.use (g : RouteGroup) (middleware : List Handler) : RouteGroup :=
  { g with groupMiddleware := g.groupMiddleware ++ middleware }

/-- `RouteGroup.group`: nested group with concatenated prefix and
`[...groupMiddleware, ...middleware]`. -/
def RouteGroup.group (g : RouteGroup) (pre : String) (middleware : List Handler) : RouteGroup :=
  { router := g.router, pre := g.pre ++ pre,
    groupMiddleware := g.groupMiddleware ++ middleware }

/-- Specification-side mount for the refinement reading of sub-router
mounting ("copies the sub-router's already-compiled routes, reapplying only a
path-prefix transform, not re-running the pattern compiler"): each compiled
route is kept as-is — method, paramNames and handlers untouched — with the
prefix concatenated onto the raw path and spliced into the compiled anchored
pattern right after the `^`. -/
def mountSpec (rt : Router) (pre : String) (sub : Router) : Router :=
  { rt with routes := rt.routes ++ sub.routes.map (fun r =>
      { r with path := pre ++ r.path,
               pattern := String.mk ('^' :: (pre.data ++ r.pattern.data.drop 1)) }) }

/-! ## Concrete instances used by witnesses and counterexamples -/

def emptyRouter : Router := ⟨[], [], none, none⟩

/-- A parameterised route registered before a more specific literal route
that overlaps it on `/users/admin`. -/
def rtFirstMatch : Router :=
  (emptyRouter.get "/users/:id" [⟨1, .resp 1⟩]).get "/users/admin" [⟨2, .resp 2⟩]

/-- No routes; a custom not-found handler that throws error 3; no error
handler. -/
def rtNfThrows : Router := ⟨[], [], some ⟨7, .err 3⟩, none⟩

/-- No routes; a not-found handler that throws error 3; an error handler
that itself throws `e + 10`. -/
def rtNfThrowsEh : Router := ⟨[], [], some ⟨7, .err 3⟩, some ⟨9, fun e => .err (e + 10)⟩⟩

/-- A sub-router with the single parameterless route `/x`. -/
def subRouterX : Router := emptyRouter.get "/x" [⟨1, .pass⟩]

/-- Route `/x` with handlers C, D; global middleware A (falls through) and B
(responds 9). -/
def rtMw : Router :=
  (emptyRouter.get "/x" [⟨3, .resp 7⟩, ⟨4, .resp 8⟩]).use [⟨1, .pass⟩, ⟨2, .resp 9⟩]

/-- Route `/x` whose second handler throws error 3; a custom error handler
responding with `e + 40`. -/
def rtErr : Router :=
  (emptyRouter.get "/x" [⟨1, .pass⟩, ⟨2, .err 3⟩]).onError ⟨9, fun e => .resp (e + 40)⟩

/-- One route `/a` and one global middleware with id 5. -/
def rtMiss : Router := (emptyRouter.get "/a" [⟨1, .resp 1⟩]).use [⟨5, .pass⟩]

/-- A router with the single route `/users/:id`. -/
def rtUsers : Router := emptyRouter.get "/users/:id" [⟨1, .resp 5⟩]

def routeUsers : Route := mkRoute "GET" "/users/:id" [⟨1, .resp 5⟩]

/-! ## Helper lemmas -/

theorem length_dropWhile_le_ (p : Char → Bool) (l : List Char) :
    (l.dropWhile p).length ≤ l.length := by
  induction l with
  | nil => simp
  | cons c rest ih =>
    rw [List.dropWhile_cons]
    by_cases h : p c = true
    · simp only [h, if_true]
      exact Nat.le_succ_of_le ih
    · simp [h]

theorem takeWhile_append_stop (p : Char → Bool) (l : List Char) (b : Char) (r : List Char)
    (hl : ∀ c ∈ l, p c = true) (hb : p b = false) :
    (l ++ b :: r).takeWhile p = l := by
  induction l with
  | nil => simp [List.takeWhile_cons, hb]
  | cons c rest ih =>
    have hc : p c = true := hl c (by simp)
    simp only [List.cons_append, List.takeWhile_cons, hc, if_true]
    rw [ih (fun d hd => hl d (by simp [hd]))]

theorem dropWhile_append_stop (p : Char → Bool) (l : List Char) (b : Char) (r : List Char)
    (hl : ∀ c ∈ l, p c = true) (hb : p b = false) :
    (l ++ b :: r).dropWhile p = b :: r := by
  induction l with
  | nil => simp [List.dropWhile_cons, hb]
  | cons c rest ih =>
    have hc : p c = true := hl c (by simp)
    simp only [List.cons_append, List.dropWhile_cons, hc, if_true]
    exact ih (fun d hd => hl d (by simp [hd]))

theorem tryConstraint_length {rest : List Char} {n : String} {body r4 : List Char}
    (h : tryConstraint rest = some (n, body, r4)) : r4.length < rest.length := by
  unfold tryConstraint at h
  by_cases h1 : (rest.takeWhile isWordChar).isEmpty
  · rw [if_pos h1] at h
    exact Option.noConfusion h
  rw [if_neg h1] at h
  by_cases h2 : (rest.dropWhile isWordChar).head? = some '('
  swap
  · rw [if_neg h2] at h
    exact Option.noConfusion h
  rw [if_pos h2] at h
  by_cases h3 : ((rest.dropWhile isWordChar).tail.takeWhile (fun c => c ≠ ')')).isEmpty
  · rw [if_pos h3] at h
    exact Option.noConfusion h
  rw [if_neg h3] at h
  by_cases h4 : ((rest.dropWhile isWordChar).tail.dropWhile (fun c => c ≠ ')')).head? = some ')'
  swap
  · rw [if_neg h4] at h
    exact Option.noConfusion h
  rw [if_pos h4] at h
  simp only [Option.some.injEq, Prod.mk.injEq] at h
  obtain ⟨-, -, hr⟩ := h
  subst hr
  have hne2 : (rest.dropWhile isWordChar) ≠ [] := by
    intro hnil
    rw [hnil] at h2
    exact Option.noConfusion h2
  have hne4 : ((rest.dropWhile isWordChar).tail.dropWhile (fun c => c ≠ ')')) ≠ [] := by
    intro hnil
    rw [hnil] at h4
    exact Option.noConfusion h4
  have hle1 := length_dropWhile_le_ isWordChar rest
  have hle2 := length_dropWhile_le_ (fun c => decide (c ≠ ')')) (rest.dropWhile isWordChar).tail
  have hlt2 : 0 < (rest.dropWhile isWordChar).length := List.length_pos.mpr hne2
  have hlt4 : 0 < ((rest.dropWhile isWordChar).tail.dropWhile (fun c => c ≠ ')')).length :=
    List.length_pos.mpr hne4
  have htl2 : (rest.dropWhile isWordChar).tail.length = (rest.dropWhile isWordChar).length - 1 :=
    List.length_tail _
  have htl4 : ((rest.dropWhile isWordChar).tail.dropWhile (fun c => c ≠ ')')).tail.length
      = ((rest.dropWhile isWordChar).tail.dropWhile (fun c => c ≠ ')')).length - 1 :=
    List.length_tail _
  omega

/-- Fuel irrelevance for the constraint pass: any fuel at least the input
length computes the same result. -/
theorem scanC_eq : ∀ f1 f2 (l : List Char),
    l.length ≤ f1 → l.length ≤ f2 → scanC f1 l = scanC f2 l := by
  intro f1
  induction f1 with
  | zero =>
    intro f2 l h1 _
    have : l = [] := List.length_eq_zero.mp (Nat.le_zero.mp h1)
    subst this
    cases f2 <;> rfl
  | succ f1 ih =>
    intro f2 l h1 h2
    cases l with
    | nil => cases f2 <;> rfl
    | cons c rest =>
      cases f2 with
      | zero => simp at h2
      | succ f2 =>
        have hr1 : rest.length ≤ f1 := by simpa using h1
        have hr2 : rest.length ≤ f2 := by simpa using h2
        by_cases hc : c = ':'
        · subst hc
          cases htc : tryConstraint rest with
          | none =>
            simp only [scanC, if_true, htc]
            rw [ih f2 rest hr1 hr2]
          | some v =>
            obtain ⟨n, body, r4⟩ := v
            have hlen := tryConstraint_length htc
            simp only [scanC, if_true, htc]
            rw [ih f2 r4 (by omega) (by omega)]
        · simp only [scanC, hc, if_false]
          rw [ih f2 rest hr1 hr2]

theorem scanC_run {f : Nat} {l : List Char} (h : l.length ≤ f) :
    scanC f l = scanConstraint l :=
  scanC_eq f l.length l h (Nat.le_refl _)

theorem scanConstraint_cons_ne {c : Char} (t : List Char) (h : ¬ c = ':') :
    scanConstraint (c :: t) = (c :: (scanConstraint t).1, (scanConstraint t).2) := by
  show scanC (t.length + 1) (c :: t) = _
  simp only [scanC, h, if_false]
  rfl

theorem scanConstraint_cons_colon_some {t : List Char} {n : String} {body r4 : List Char}
    (h : tryConstraint t = some (n, body, r4)) :
    scanConstraint (':' :: t)
      = ('(' :: (body ++ ')' :: (scanConstraint r4).1), n :: (scanConstraint r4).2) := by
  show scanC (t.length + 1) (':' :: t) = _
  simp only [scanC, if_true, h]
  rw [scanC_run (Nat.le_of_lt (tryConstraint_length h))]

theorem scanConstraint_append_nocolon (l r : List Char) (hl : ∀ c ∈ l, ¬ c = ':') :
    scanConstraint (l ++ r) = (l ++ (scanConstraint r).1, (scanConstraint r).2) := by
  induction l with
  | nil => simp
  | cons c rest ih =>
    rw [List.cons_append, scanConstraint_cons_ne _ (hl c (by simp)),
      ih (fun d hd => hl d (by simp [hd]))]
    simp

theorem scanConstraint_nil : scanConstraint [] = ([], []) := rfl

theorem scanConstraint_nocolon (l : List Char) (hl : ∀ c ∈ l, ¬ c = ':') :
    scanConstraint l = (l, []) := by
  have := scanConstraint_append_nocolon l [] hl
  simpa [scanConstraint_nil] using this

/-- Computing `tryConstraint` on a well-formed constraint segment. -/
theorem tryConstraint_shape (name con tail : List Char)
    (hname : ¬ name = []) (hnamew : ∀ c ∈ name, isWordChar c = true)
    (hcon : ¬ con = []) (hconp : ∀ c ∈ con, ¬ c = ')') :
    tryConstraint (name ++ '(' :: (con ++ ')' :: tail))
      = some (String.mk name, con, tail) := by
  have htw : (name ++ '(' :: (con ++ ')' :: tail)).takeWhile isWordChar = name :=
    takeWhile_append_stop isWordChar name '(' _ hnamew (by decide)
  have hdw : (name ++ '(' :: (con ++ ')' :: tail)).dropWhile isWordChar
      = '(' :: (con ++ ')' :: tail) :=
    dropWhile_append_stop isWordChar name '(' _ hnamew (by decide)
  have htw2 : (con ++ ')' :: tail).takeWhile (fun c => decide (c ≠ ')')) = con :=
    takeWhile_append_stop _ con ')' tail
      (fun c hc => by simpa using hconp c hc) (by decide)
  have hdw2 : (con ++ ')' :: tail).dropWhile (fun c => decide (c ≠ ')')) = ')' :: tail :=
    dropWhile_append_stop _ con ')' tail
      (fun c hc => by simpa using hconp c hc) (by decide)
  unfold tryConstraint
  rw [htw, hdw]
  simp only [List.head?_cons, List.tail_cons]
  rw [htw2, hdw2]
  simp [List.isEmpty_eq_true, hname, hcon]

theorem scanP_cons_ne {c : Char} (fuel : Nat) (t : List Char) (names : List String)
    (h : ¬ c = ':') :
    scanP (fuel + 1) (c :: t) names = (c :: (scanP fuel t names).1, (scanP fuel t names).2) := by
  simp only [scanP, h, if_false]

theorem scanParam_nocolon (l : List Char) (names : List String)
    (hl : ∀ c ∈ l, ¬ c = ':') :
    scanParam l names = (l, names) := by
  induction l with
  | nil => rfl
  | cons c rest ih =>
    show scanP (rest.length + 1) (c :: rest) names = _
    rw [scanP_cons_ne _ _ _ (hl c (by simp))]
    have : scanP rest.length rest names = scanParam rest names := rfl
    rw [this, ih (fun d hd => hl d (by simp [hd]))]

theorem scanWild_nostar (l : List Char) (hl : ∀ c ∈ l, ¬ c = '*') :
    scanWild l = l := by
  induction l with
  | nil => rfl
  | cons c rest ih =>
    simp only [scanWild, hl c (by simp), if_false]
    rw [ih (fun d hd => hl d (by simp [hd]))]

theorem runChain_pass (mk : Nat → Ev) (hs : List Handler)
    (h : ∀ x ∈ hs, x.beh = .pass) :
    runChain mk hs = (hs.map (fun x => mk x.id), .fellThrough) := by
  induction hs with
  | nil => rfl
  | cons x rest ih =>
    simp only [runChain, h x (by simp)]
    rw [ih (fun y hy => h y (by simp [hy]))]
    simp

theorem runChain_append_pass (mk : Nat → Ev) (hs1 rest : List Handler)
    (h : ∀ x ∈ hs1, x.beh = .pass) :
    runChain mk (hs1 ++ rest)
      = (hs1.map (fun x => mk x.id) ++ (runChain mk rest).1, (runChain mk rest).2) := by
  induction hs1 with
  | nil => simp
  | cons x t ih =>
    have hx : x.beh = .pass := h x (by simp)
    have iht := ih (fun y hy => h y (by simp [hy]))
    simp only [List.cons_append, runChain, hx, List.append_eq]
    rw [iht]
    simp

theorem mw_not_in_handleNotFound (rt : Router) (i : Nat) :
    Ev.mw i ∉ (rt.handleNotFound).1 := by
  unfold Router.handleNotFound
  cases rt.notFoundHandler with
  | none => simp
  | some h => cases hb : h.beh <;> simp [hb]

theorem mw_not_in_handleError (rt : Router) (e i : Nat) :
    Ev.mw i ∉ (rt.handleError e).1 := by
  unfold Router.handleError
  cases rt.errorHandler with
  | none => simp
  | some h => cases hb : h.beh e <;> simp [hb]

/-! ## Claim theorems -/

/-- C1: registration order determines dispatch precedence.  If the route
table is `l1 ++ r1 :: l2 ++ r2 :: l3` — so `r1` was registered before `r2` —
the request's method and path are accepted by both `r1` and `r2` (method
equal to the route's method or the route's method is the wildcard, and the
anchored matcher accepts the full path), and no route registered before `r1`
matches, then `findRoute`'s linear scan returns `r1`, regardless of
specificity. -/
theorem findRoute_first_registered (rt : Router) (m p : String)
    (l1 l2 l3 : List Route) (r1 r2 : Route)
    (hroutes : rt.routes = l1 ++ r1 :: (l2 ++ r2 :: l3))
    (h1 : routeAccepts m p r1 = true)
    (_h2 : routeAccepts m p r2 = true)
    (hpre : ∀ r ∈ l1, routeAccepts m p r = false) :
    rt.findRoute m p = some r1 := by
  have aux : ∀ (l : List Route), (∀ r ∈ l, routeAccepts m p r = false) →
      findRouteList m p (l ++ r1 :: (l2 ++ r2 :: l3)) = some r1 := by
    intro l
    induction l with
    | nil =>
      intro _
      simp [findRouteList, h1]
    | cons x t ih =>
      intro hx
      have hx0 : routeAccepts m p x = false := hx x (by simp)
      simp only [List.cons_append, findRouteList, hx0]
      simp only [Bool.false_eq_true, if_false]
      exact ih (fun r hr => hx r (by simp [hr]))
  unfold Router.findRoute
  rw [hroutes]
  exact aux l1 hpre

/-- C1 witness: with `/users/:id` registered before `/users/admin`, the path
`/users/admin` matches both, and dispatch selects the earlier parameterised
route. -/
theorem findRoute_first_registered_witness :
    rtFirstMatch.findRoute "GET" "/users/admin"
      = some (mkRoute "GET" "/users/:id" [⟨1, .resp 1⟩]) :=
  findRoute_first_registered rtFirstMatch "GET" "/users/admin" [] [] []
    (mkRoute "GET" "/users/:id" [⟨1, .resp 1⟩])
    (mkRoute "GET" "/users/admin" [⟨2, .resp 2⟩])
    (by decide) (by decide) (by decide) (by simp)

/-- C2 counterexample: with no routes, a custom not-found handler that throws
error 3, and no error handler, `handle` returns the default error response
for error 3.  The core's try/catch in `handle` wraps the `handleNotFound`
call sites, so the not-found handler's exception is caught and converted to
a response by the core rather than propagating out of `handle` as an
unrecoverable fault, refuting the claim for the not-found half. -/
theorem handle_nfThrow_is_handled :
    rtNfThrows.handle "GET" "/x" = ([Ev.nf 7], .ok (.errorDefault 3)) := by decide

/-- C2 (amended): only the custom error handler's own throw escapes `handle`
unhandled.  A throw from the custom not-found handler is caught by `handle`'s
top-level catch and diverted to the error path — here the error handler is
invoked with exactly the not-found handler's error `e` — and when that error
handler itself throws `e2`, the fault `e2` propagates out of `handle`. -/
theorem handle_errorHandler_throw_faults (rt : Router) (m p : String)
    (h : Handler) (i e e2 : Nat) (f : Nat → EHRes)
    (hfind : rt.findRoute m p = none)
    (hnf : rt.notFoundHandler = some h)
    (hbeh : h.beh = .err e)
    (heh : rt.errorHandler = some ⟨i, f⟩)
    (hf : f e = .err e2) :
    rt.handle m p = ([Ev.nf h.id, Ev.eh i e], .fault e2) := by
  have h1 : rt.handleNotFound = ([Ev.nf h.id], .error e) := by
    unfold Router.handleNotFound
    rw [hnf]
    simp [hbeh]
  have h2 : rt.handleError e = ([Ev.eh i e], .fault e2) := by
    unfold Router.handleError
    rw [heh]
    simp [hf]
  simp [Router.handle, hfind, h1, h2]

/-- C2 witness: the not-found handler throws 3, the error handler is invoked
with 3 and throws 13, and `handle` ends in the fault 13. -/
theorem handle_errorHandler_throw_faults_witness :
    rtNfThrowsEh.handle "GET" "/x" = ([Ev.nf 7, Ev.eh 9 3], .fault 13) :=
  handle_errorHandler_throw_faults rtNfThrowsEh "GET" "/x" ⟨7, .err 3⟩ 9 3 13
    (fun e => .err (e + 10)) rfl rfl rfl rfl rfl

/-- C3 counterexample: mounting `subRouterX` (single route `/x`, compiled
with no parameters) at prefix `/:t` re-runs the pattern compiler on the
concatenated path `/:t/x`, so the merged route acquires the parameter `t`.
Under the claim's compile-free path-prefix transform (`mountSpec`) the merged
route keeps its compiled `paramNames = []`.  The results differ, refuting
"the pattern compiler is not re-run on the merged routes". -/
theorem mount_recompile_counterexample :
    (emptyRouter.mount "/:t" subRouterX).routes.map Route.paramNames = [["t"]] ∧
    (mountSpec emptyRouter "/:t" subRouterX).routes.map Route.paramNames = [[]] ∧
    (emptyRouter.mount "/:t" subRouterX).routes
      ≠ (mountSpec emptyRouter "/:t" subRouterX).routes := by
  decide

/-- C3 (amended): mounting a sub-router at a prefix re-registers each of the
sub-router's routes on the parent via `addRoute` with path
`prefix ++ subRoute.path`; every merged route keeps the sub-route's method
and its exact handler list, but its pattern and paramNames are recompiled by
`parsePath` from the concatenated raw path — the pattern compiler IS re-run
on every merged route. -/
theorem mount_re_registers (rt : Router) (pre : String) (sub : Router) :
    (rt.mount pre sub).routes
      = rt.routes ++ sub.routes.map (fun r => mkRoute r.method (pre ++ r.path) r.handlers) ∧
    ∀ r ∈ sub.routes,
      (mkRoute r.method (pre ++ r.path) r.handlers).method = r.method ∧
      (mkRoute r.method (pre ++ r.path) r.handlers).handlers = r.handlers := by
  constructor
  · have aux : ∀ (rs : List Route) (acc : Router),
        (rs.foldl (fun a r => a.addRoute r.method (pre ++ r.path) r.handlers) acc).routes
          = acc.routes ++ rs.map (fun r => mkRoute r.method (pre ++ r.path) r.handlers) := by
      intro rs
      induction rs with
      | nil =>
        intro acc
        simp
      | cons x t ih =>
        intro acc
        simp only [List.foldl_cons, List.map_cons]
        rw [ih]
        simp [Router.addRoute]
    exact aux sub.routes rt
  · intro r _
    exact ⟨rfl, rfl⟩

/-- C4 counterexample: for the raw path `/:f(a*)` the constraint `a*` is not
embedded verbatim in the resulting matcher — the wildcard pass rewrites the
`*` inside the already-embedded constraint, producing the matcher source
`^/(a.*)$` rather than `^/(a*)$` (which a verbatim embedding would give).
The name `f` is still appended to paramNames. -/
theorem parsePath_constraint_not_verbatim :
    parsePath "/:f(a*)" = ⟨"^/(a.*)$", ["f"]⟩ ∧
    (parsePath "/:f(a*)").pattern ≠ "^/(a*)$" := by
  decide

/-- C4 (amended): the constraint pass embeds the constraint verbatim as the
body of a capture group and appends `name` to paramNames, but the later
parameter and wildcard passes also process text inside the embedded
constraint, rewriting `:word` and `*` occurrences there.  Hence for a raw
path `lead:name(con)tail` in which the surrounding text triggers no rewrite
(no `:` and no `*` in `lead` or `tail`) and the constraint `con` contains no
`)`, `:` or `*`, compilation yields exactly the matcher `^lead(con)tail$`
with the constraint verbatim as the capture-group body, and paramNames is
`[name]`. -/
theorem parsePath_constraint_verbatim (p : String) (lead name con tail : List Char)
    (hp : p.data = lead ++ ':' :: (name ++ '(' :: (con ++ ')' :: tail)))
    (hlead : ∀ c ∈ lead, ¬ c = ':' ∧ ¬ c = '*')
    (hname : ¬ name = []) (hnamew : ∀ c ∈ name, isWordChar c = true)
    (hcon : ¬ con = []) (hconc : ∀ c ∈ con, ¬ c = ')' ∧ ¬ c = ':' ∧ ¬ c = '*')
    (htail : ∀ c ∈ tail, ¬ c = ':' ∧ ¬ c = '*') :
    parsePath p
      = ⟨String.mk ('^' :: (lead ++ '(' :: (con ++ ')' :: tail)) ++ ['$']),
         [String.mk name]⟩ := by
  have hnc : ∀ c ∈ lead ++ '(' :: (con ++ ')' :: tail), ¬ c = ':' := by
    intro c hc
    rcases List.mem_append.mp hc with h | h
    · exact (hlead c h).1
    · rcases List.mem_cons.mp h with h | h
      · subst h; decide
      · rcases List.mem_append.mp h with h | h
        · exact (hconc c h).2.1
        · rcases List.mem_cons.mp h with h | h
          · subst h; decide
          · exact (htail c h).1
  have hns : ∀ c ∈ lead ++ '(' :: (con ++ ')' :: tail), ¬ c = '*' := by
    intro c hc
    rcases List.mem_append.mp hc with h | h
    · exact (hlead c h).2
    · rcases List.mem_cons.mp h with h | h
      · subst h; decide
      · rcases List.mem_append.mp h with h | h
        · exact (hconc c h).2.2
        · rcases List.mem_cons.mp h with h | h
          · subst h; decide
          · exact (htail c h).2
  have hs1 : scanConstraint (lead ++ ':' :: (name ++ '(' :: (con ++ ')' :: tail)))
      = (lead ++ '(' :: (con ++ ')' :: tail), [String.mk name]) := by
    rw [scanConstraint_append_nocolon lead _ (fun c hc => (hlead c hc).1),
      scanConstraint_cons_colon_some
        (tryConstraint_shape name con tail hname hnamew hcon (fun c hc => (hconc c hc).1)),
      scanConstraint_nocolon tail (fun c hc => (htail c hc).1)]
  have hpp : parsePath p
      = ⟨String.mk ('^' ::
            scanWild (scanParam (scanConstraint p.data).1 (scanConstraint p.data).2).1
            ++ ['$']),
         (scanParam (scanConstraint p.data).1 (scanConstraint p.data).2).2⟩ := rfl
  rw [hpp, hp, hs1]
  dsimp only
  rw [scanParam_nocolon _ _ hnc]
  dsimp only
  rw [scanWild_nostar _ hns]

/-- C4 witness: the representative constrained path from the spec,
`/posts/:id(\d+)`, compiles to `^/posts/(\d+)$` with paramNames `["id"]`. -/
theorem parsePath_constraint_verbatim_witness :
    parsePath "/posts/:id(\\d+)" = ⟨"^/posts/(\\d+)$", ["id"]⟩ := by
  have h := parsePath_constraint_verbatim "/posts/:id(\\d+)"
    "/posts/".data "id".data "\\d+".data []
    (by decide) (by decide) (by decide) (by decide) (by decide) (by decide) (by decide)
  rw [h]
  decide

/-- C5: with global middleware `[A, B]` where `A` falls through and `B`
returns response `r`, and a matched route with handler list `[C, D]`, the
executor invokes exactly `A` then `B` (the full invocation trace is
`[mw A, mw B]`), takes `B`'s result as the final response, and never invokes
`C` or `D` (no route-handler event occurs in the trace). -/
theorem handle_middleware_short_circuit (rt : Router) (m p : String)
    (A B C D : Handler) (r : Nat) (route : Route)
    (hfind : rt.findRoute m p = some route)
    (hgm : rt.globalMiddleware = [A, B])
    (hA : A.beh = .pass) (hB : B.beh = .resp r)
    (_hroute : route.handlers = [C, D]) :
    rt.handle m p = ([Ev.mw A.id, Ev.mw B.id], .ok (.fromHandler r)) := by
  have hchain : runChain .mw rt.globalMiddleware
      = ([Ev.mw A.id, Ev.mw B.id], .responded r) := by
    rw [hgm]
    simp [runChain, hA, hB]
  simp [Router.handle, hfind, hchain]

/-- C5 witness: middleware 1 passes, middleware 2 responds 9; the trace is
exactly `[mw 1, mw 2]` and handlers 3 and 4 of the matched route never run. -/
theorem handle_middleware_short_circuit_witness :
    rtMw.handle "GET" "/x" = ([Ev.mw 1, Ev.mw 2], .ok (.fromHandler 9)) :=
  handle_middleware_short_circuit rtMw "GET" "/x"
    ⟨1, .pass⟩ ⟨2, .resp 9⟩ ⟨3, .resp 7⟩ ⟨4, .resp 8⟩ 9
    (mkRoute "GET" "/x" [⟨3, .resp 7⟩, ⟨4, .resp 8⟩])
    (by decide) rfl rfl rfl rfl

/-- C6: when a route handler throws error `e` (after passing middleware and
earlier passing handlers) and a custom error handler is registered that
returns response `r` on `e`, the error handler is invoked exactly with the
thrown error `e` (event `eh i e` in the trace), its response is the final
response, and the default 500 (`errorDefault`) is never produced — the
outcome is exactly `ok (fromHandler r)`. -/
theorem handle_error_custom_handler (rt : Router) (m p : String) (route : Route)
    (hs1 hs2 : List Handler) (H : Handler) (i e r : Nat) (f : Nat → EHRes)
    (hfind : rt.findRoute m p = some route)
    (hgm : ∀ x ∈ rt.globalMiddleware, x.beh = .pass)
    (hroute : route.handlers = hs1 ++ H :: hs2)
    (hs1p : ∀ x ∈ hs1, x.beh = .pass)
    (hH : H.beh = .err e)
    (heh : rt.errorHandler = some ⟨i, f⟩)
    (hf : f e = .resp r) :
    rt.handle m p
      = (rt.globalMiddleware.map (fun x => Ev.mw x.id)
          ++ hs1.map (fun x => Ev.rh x.id) ++ [Ev.rh H.id, Ev.eh i e],
         .ok (.fromHandler r)) := by
  have hc1 : runChain .mw rt.globalMiddleware
      = (rt.globalMiddleware.map (fun x => Ev.mw x.id), .fellThrough) :=
    runChain_pass _ _ hgm
  have hc2 : runChain .rh route.handlers
      = (hs1.map (fun x => Ev.rh x.id) ++ [Ev.rh H.id], .threw e) := by
    rw [hroute, runChain_append_pass _ _ _ hs1p]
    simp [runChain, hH]
  have hherr : rt.handleError e = ([Ev.eh i e], .ok (.fromHandler r)) := by
    unfold Router.handleError
    rw [heh]
    simp [hf]
  simp [Router.handle, hfind, hc1, hc2, hherr]

/-- C6 witness: handler 1 passes, handler 2 throws error 3, error handler 9
responds `3 + 40 = 43`; the outcome is handler response 43 and the trace
records the error handler invoked with exactly error 3. -/
theorem handle_error_custom_handler_witness :
    rtErr.handle "GET" "/x" = ([Ev.rh 1, Ev.rh 2, Ev.eh 9 3], .ok (.fromHandler 43)) := by
  have h := handle_error_custom_handler rtErr "GET" "/x"
    (mkRoute "GET" "/x" [⟨1, .pass⟩, ⟨2, .err 3⟩])
    [⟨1, .pass⟩] [] ⟨2, .err 3⟩ 9 3 43 (fun e => .resp (e + 40))
    (by decide) (by simp [rtErr, emptyRouter, Router.get, Router.addRoute, Router.onError])
    rfl (by decide) rfl rfl rfl
  simpa using h

/-- C7: every registration call on a (possibly nested) route group registers
on the parent table with path `accumulatedPrefix ++ path` and handler list
`accumulatedMiddleware ++ suppliedHandlers`; in particular
`router.group("/api").group("/v1").get("/x", h)` registers a route whose
effective path is `/api/v1/x`. -/
theorem group_registration_composes :
    (∀ (g : RouteGroup) (path : String) (hs : List Handler),
        (g.get path hs).router.routes
          = g.router.routes
            ++ [mkRoute "GET" (g.pre ++ path) (g.groupMiddleware ++ hs)]) ∧
    (((emptyRouter.group "/api" []).group "/v1" []).get "/x"
        [⟨0, .pass⟩]).router.routes.map Route.path = ["/api/v1/x"] := by
  constructor
  · intro g path hs
    simp [RouteGroup.get, Router.addRoute]
  · decide

/-- C8: the route `/users/:id` compiles its unconstrained parameter to the
capture `([^/]+)` requiring at least one non-slash character; dispatching
`/users/42` finds the route and extracts `params.id = "42"`, while
dispatching `/users/` (empty final segment) does not match the route. -/
theorem route_param_capture_nonempty :
    parsePath "/users/:id" = ⟨"^/users/([^/]+)$", ["id"]⟩ ∧
    rtUsers.findRoute "GET" "/users/42" = some routeUsers ∧
    objGet (Router.extractParams routeUsers "/users/42") "id" = some "42" ∧
    rtUsers.findRoute "GET" "/users/" = none := by
  decide

/-- C9: when no registered route matches the request's method and path, the
dispatcher goes directly to the not-found path and never invokes any global
middleware: no `mw` event occurs in the trace of `handle`. -/
theorem handle_nomatch_skips_middleware (rt : Router) (m p : String)
    (hfind : rt.findRoute m p = none) (i : Nat) :
    Ev.mw i ∉ (rt.handle m p).1 := by
  unfold Router.handle
  rw [hfind]
  rcases hnf : rt.handleNotFound with ⟨evs, res⟩
  have hevs : Ev.mw i ∉ evs := by
    have h0 := mw_not_in_handleNotFound rt i
    rw [hnf] at h0
    exact h0
  cases res with
  | ok r => simp [hnf, hevs]
  | error e =>
    rcases hhe : rt.handleError e with ⟨evs2, o⟩
    have hevs2 : Ev.mw i ∉ evs2 := by
      have h0 := mw_not_in_handleError rt e i
      rw [hhe] at h0
      exact h0
    simp [hnf, hhe, hevs, hevs2]

/-- C9 witness: `rtMiss` has global middleware 5 registered, `/zzz` matches
no route, and the dispatch trace contains no invocation of middleware 5. -/
theorem handle_nomatch_skips_middleware_witness :
    Ev.mw 5 ∉ (rtMiss.handle "GET" "/zzz").1 :=
  handle_nomatch_skips_middleware rtMiss "GET" "/zzz" (by decide) 5

/-- C10: a registration on a group snapshots the group's middleware list
(`[...groupMiddleware, ...handlers]` is a fresh list); a later `use` on the
group extends only the group's own middleware list, leaves the router's
registered routes — including the just-registered route and its handler
chain `groupMiddleware ++ hs` — completely unchanged. -/
theorem group_use_preserves_registered (g : RouteGroup) (path : String)
    (hs ms : List Handler) :
    ((g.get path hs).use ms).router.routes
        = g.router.routes ++ [mkRoute "GET" (g.pre ++ path) (g.groupMiddleware ++ hs)] ∧
    ((g.get path hs).use ms).groupMiddleware = g.groupMiddleware ++ ms ∧
    ((g.get path hs).use ms).router = (g.get path hs).router := by
  refine ⟨?_, rfl, rfl⟩
  simp [RouteGroup.get, RouteGroup.use, Router.addRoute]

end EdgeRouter
